import Mathlib

/-
Verification of the Orac Knowledge Graph worker (src/worker/src/index.js).

Shallow embedding conventions:
  * Timestamps are integers counting milliseconds since the epoch, as in the
    JavaScript Date arithmetic of the source (ISO strings are identified with
    the instants they denote).
  * Floating-point arithmetic is idealised over the reals; Math.pow(0.5, x)
    becomes real exponentiation with base 1/2.
  * The Cloudflare KV store is a map from string keys to values; a put with
    expirationTtl t makes the entry unavailable t seconds after that put.
  * Response shaping is modelled structurally: the data a response exposes
    (texts, scores, relations) rather than its JSON/string serialisation.
-/

set_option maxHeartbeats 1000000

namespace OKG

/-- A stored observation record, with the optional fields of the source:
text, observed_at, expires_at, last_accessed, access_count, relevance. -/
structure ObsRec where
  text : String
  observed_at : Option ℤ
  expires_at : Option ℤ
  last_accessed : Option ℤ
  access_count : ℕ
  relevance : Option ℚ
  deriving DecidableEq

/-- An observation normalised by normalizeObs: every field present. -/
structure NormObs where
  text : String
  observed_at : Option ℤ
  expires_at : Option ℤ
  last_accessed : Option ℤ
  access_count : ℕ
  relevance : ℚ
  deriving DecidableEq

/-- A stored observation is either a bare string (legacy shape) or a record,
mirroring the dynamic shape the source accepts. -/
inductive Obs where
  | ostr (s : String)
  | orec (r : ObsRec)
  deriving DecidableEq

/-- normalizeObs from the source: strings expand to the default record,
records get their defaults applied (relevance defaults to 1). -/
def normalizeObs : Obs → NormObs
  | .ostr s => ⟨s, none, none, none, 0, 1⟩
  | .orec r => ⟨r.text, r.observed_at, r.expires_at, r.last_accessed, r.access_count, r.relevance.getD 1⟩

/-- isExpired from the source: expires_at present and not after now. -/
def isExpired (o : Obs) (now : ℤ) : Bool :=
  match (normalizeObs o).expires_at with
  | some t => decide (t ≤ now)
  | none => false

/-- obsText from the source. -/
def obsText : Obs → String
  | .ostr s => s
  | .orec r => r.text

/-- Milliseconds in a day (the 1000*60*60*24 of the source). -/
def MS_PER_DAY : ℚ := 86400000

def DECAY_HALF_LIFE_DAYS : ℚ := 30

noncomputable def ACCESS_BOOST : ℝ := 1/10

def RECENCY_BOOST_DAYS : ℚ := 7

noncomputable def MIN_RELEVANCE : ℝ := 1/100

/-- Math.pow(0.5, q) of the source, over the reals. -/
noncomputable def halfPow (q : ℚ) : ℝ := ((1:ℝ)/2) ^ (q : ℝ)

/-- ageDays of the source: (now - observedAt)/(1000*60*60*24), with a missing
observed_at treated as now (so age 0). -/
def ageDaysOf (oa : Option ℤ) (now : ℤ) : ℚ :=
  match oa with
  | some t => ((now - t : ℤ) : ℚ) / MS_PER_DAY
  | none => 0

/-- accessBoost of the source: 1 + access_count * ACCESS_BOOST. -/
noncomputable def accessBoostVal (n : ℕ) : ℝ := 1 + (n : ℝ) * ACCESS_BOOST

/-- recencyBoost of the source: the linear ramp when last_accessed is within
RECENCY_BOOST_DAYS of now, else 1. -/
noncomputable def recencyBoostVal (la : Option ℤ) (now : ℤ) : ℝ :=
  match la with
  | none => 1
  | some t =>
    if ((now - t : ℤ) : ℚ) / MS_PER_DAY < RECENCY_BOOST_DAYS then
      1 + (1 - ((((now - t : ℤ) : ℚ) / MS_PER_DAY : ℚ) : ℝ) / 7) * (1/2)
    else 1

/-- decayScore from the source. -/
noncomputable def decayScore (o : Obs) (now : ℤ) : ℝ :=
  max MIN_RELEVANCE
    (((normalizeObs o).relevance : ℝ)
      * halfPow (ageDaysOf (normalizeObs o).observed_at now / DECAY_HALF_LIFE_DAYS)
      * accessBoostVal (normalizeObs o).access_count
      * recencyBoostVal (normalizeObs o).last_accessed now)

/-- Modelled from the spec: the recencyBoost clause of section 4.1, written
from the spec's words for the refinement comparison. -/
noncomputable def specRecencyBoost (la : Option ℤ) (now : ℤ) : ℝ :=
  match la with
  | none => 1
  | some t =>
    if ((now - t : ℤ) : ℚ) / MS_PER_DAY < 7 then
      1 + (1 - ((((now - t : ℤ) : ℚ) / MS_PER_DAY : ℚ) : ℝ) / 7) * (1/2)
    else 1

/-- Modelled from the spec: score = max(0.01, relevance * 0.5^(ageDays/30)
* (1 + 0.1*access_count) * recencyBoost), written from the spec's words for
the refinement comparison with decayScore. -/
noncomputable def specDecayScore (o : Obs) (now : ℤ) : ℝ :=
  max (1/100)
    (((normalizeObs o).relevance : ℝ)
      * ((1:ℝ)/2) ^ ((ageDaysOf (normalizeObs o).observed_at now / 30 : ℚ) : ℝ)
      * (1 + ((normalizeObs o).access_count : ℝ) * (1/10))
      * specRecencyBoost (normalizeObs o).last_accessed now)

/-- An entity of the graph document (the constant type tag of the source is
omitted; it is never read). -/
structure Entity where
  name : String
  entityType : String
  observations : List Obs
  created : ℤ
  updated : ℤ
  deriving DecidableEq

/-- A relation of the graph document. -/
structure Rel where
  source : String
  relation : String
  target : String
  created : ℤ
  expires_at : Option ℤ
  deriving DecidableEq

/-- The whole graph document. -/
structure Graph where
  entities : List Entity
  relations : List Rel
  deriving DecidableEq

/-- getActiveObs from the source. -/
def getActiveObs (e : Entity) (now : ℤ) (includeExpired : Bool) : List Obs :=
  e.observations.filter (fun o => includeExpired || !isExpired o now)

/-- The expiry test on relations (the second conjunct of getActiveRels). -/
def relActive (r : Rel) (now : ℤ) (includeExpired : Bool) : Bool :=
  includeExpired ||
    match r.expires_at with
    | some t => decide (now < t)
    | none => true

/-- getActiveRels from the source. -/
def getActiveRels (g : Graph) (nm : String) (now : ℤ) (includeExpired : Bool) : List Rel :=
  g.relations.filter (fun r => (r.source == nm || r.target == nm) && relActive r now includeExpired)

/-- Whether pat occurs at the head of s. -/
def listStarts : List Char → List Char → Bool
  | [], _ => true
  | _ :: _, [] => false
  | c :: p, d :: s => c == d && listStarts p s

/-- String.prototype.includes of the source: pat occurs somewhere in s. -/
def occursIn (pat : List Char) : List Char → Bool
  | [] => pat.isEmpty
  | d :: t => listStarts pat (d :: t) || occursIn pat t

/-- toLowerCase on one character, restricted to ASCII letters (which covers
every string this development evaluates). -/
def lowerChar (c : Char) : Char :=
  if 65 ≤ c.toNat ∧ c.toNat ≤ 90 then Char.ofNat (c.toNat + 32) else c

/-- toLowerCase of the source. -/
def lowerStr (s : String) : String := String.mk (s.data.map lowerChar)

/-- Array.prototype.join with a separator, as used by searchNodes. -/
def joinSep (sep : String) : List String → String
  | [] => ""
  | [s] => s
  | s :: t :: r => s ++ sep ++ joinSep sep (t :: r)

/-- The searchable text of searchNodes: name, type and active observation
texts joined with single spaces, lowercased. -/
def searchableOf (e : Entity) (now : ℤ) : String :=
  lowerStr (joinSep " " (e.name :: e.entityType :: (getActiveObs e now false).map obsText))

/-- The match test of searchNodes: lowercased query occurs in the searchable
text. -/
def searchMatches (e : Entity) (q : String) (now : ℤ) : Bool :=
  occursIn (lowerStr q).toList (searchableOf e now).toList

/-- The ranking score of searchNodes: the mean decay score of the active
observations, 0 when there are none. -/
noncomputable def avgScoreOf (e : Entity) (now : ℤ) : ℝ :=
  let scores := (getActiveObs e now false).map (fun o => decayScore o now)
  if scores.length = 0 then 0 else scores.sum / scores.length

/-- Stable insertion into a list sorted descending by the key f: the new
element goes after every element whose key is at least as large, which is
exactly where the stable comparator sort of the source puts it. -/
noncomputable def insDesc {α : Type} (f : α → ℝ) (x : α) : List α → List α
  | [] => [x]
  | y :: ys => if f y < f x then x :: y :: ys else y :: insDesc f x ys

/-- The stable descending sort performed by results.sort((a, b) => b.score - a.score). -/
noncomputable def stableSortDesc {α : Type} (f : α → ℝ) (l : List α) : List α :=
  l.foldl (fun acc x => insDesc f x acc) []

/-- searchNodes from the source: filter in iteration order, pair each match
with its mean score, sort stably by score descending. -/
noncomputable def searchNodes (g : Graph) (q : String) (now : ℤ) : List (Entity × ℝ) :=
  stableSortDesc (fun p => p.2)
    ((g.entities.filter (fun e => searchMatches e q now)).map (fun e => (e, avgScoreOf e now)))

/-- toFixed(3) rounding of a score, idealised over the reals. -/
noncomputable def round3 (x : ℝ) : ℝ := (round (x * 1000) : ℤ) / 1000

/-- One observation of an entity view (fields that the source includes only
conditionally are modelled as always-present with the same values). -/
structure ObsView where
  text : String
  score : ℝ
  observed_at : Option ℤ
  expires_at : Option ℤ
  expired : Bool
  access_count : ℕ

/-- One relation of an entity view. -/
structure RelView where
  direction : String
  relation : String
  entity : String
  expires_at : Option ℤ

/-- The entity view produced by formatEntity. -/
structure EntityView where
  name : String
  type : String
  observations : List ObsView
  relations : List RelView
  created : ℤ
  updated : ℤ

/-- formatEntity from the source. -/
noncomputable def formatEntity (e : Entity) (g : Graph) (now : ℤ) (includeExpired : Bool) : EntityView :=
  { name := e.name
    type := e.entityType
    observations := (getActiveObs e now includeExpired).map (fun o =>
      { text := (normalizeObs o).text
        score := round3 (decayScore o now)
        observed_at := (normalizeObs o).observed_at
        expires_at := (normalizeObs o).expires_at
        expired := isExpired o now
        access_count := (normalizeObs o).access_count })
    relations := (getActiveRels g e.name now includeExpired).map (fun r =>
      { direction := if r.source == e.name then "outgoing" else "incoming"
        relation := r.relation
        entity := if r.source == e.name then r.target else r.source
        expires_at := r.expires_at })
    created := e.created
    updated := e.updated }

/-- handleEntity's response content: the default view of the named entity,
none when it is absent (the includeExpired flag is never set by the route). -/
noncomputable def entityViewOf (g : Graph) (now : ℤ) (nm : String) : Option EntityView :=
  (g.entities.find? (fun e => e.name == nm)).map (fun e => formatEntity e g now false)

/-- handleSearch's response content: a default view per search result. -/
noncomputable def searchRespViews (g : Graph) (q : String) (now : ℤ) : List EntityView :=
  (searchNodes g q now).map (fun p => formatEntity p.1 g now false)

/-- The observation texts the MCP read_entity tool renders. -/
def mcpEntityTexts (g : Graph) (now : ℤ) (nm : String) : List String :=
  match g.entities.find? (fun e => e.name == nm) with
  | some e => (getActiveObs e now false).map obsText
  | none => []

/-- The observation texts the MCP search_nodes tool renders. -/
noncomputable def mcpSearchTexts (g : Graph) (q : String) (now : ℤ) : List String :=
  (searchNodes g q now).flatMap (fun p => (getActiveObs p.1 now false).map obsText)

/-- RATE_LIMITS of the source, with the default 100 for unknown classes. -/
def RATE_LIMITS (op : String) : ℕ :=
  if op = "entities" then 10
  else if op = "observations" then 50
  else if op = "relations" then 20
  else if op = "reads" then 1000
  else 100

/-- The expirationTtl of 3600 seconds, in milliseconds. -/
def RATE_TTL_MS : ℤ := 3600000

/-- The rate-limit slice of the KV store: per key, the counter value and the
absolute instant at which the entry expires. -/
def RateMap : Type := String → Option (ℕ × ℤ)

/-- A KV get that respects expiry. -/
def kvGet (m : RateMap) (k : String) (now : ℤ) : Option ℕ :=
  match m k with
  | some (c, exp) => if now < exp then some c else none
  | none => none

/-- A KV put with expirationTtl: the new entry expires RATE_TTL_MS after this
put. -/
def kvPut (m : RateMap) (k : String) (c : ℕ) (exp : ℤ) : RateMap :=
  fun k' => if k' = k then some (c, exp) else m k'

/-- The result record of checkRateLimit. -/
structure RateInfo where
  allowed : Bool
  remaining : ℕ
  limit : ℕ
  deriving DecidableEq

/-- The one identity exempt from rate limiting. -/
def ORAC_IP : String := "139.68.251.208"

/-- checkRateLimit from the source: early-return for the exempt identity;
otherwise read the counter, deny at the limit, else increment and persist
with the window time-to-live. -/
def checkRateLimit (m : RateMap) (ip op : String) (now : ℤ) : RateInfo × RateMap :=
  if ip = ORAC_IP then (⟨true, 9999, 9999⟩, m)
  else
    let key := "rate:" ++ ip ++ ":" ++ op
    let limit := RATE_LIMITS op
    match kvGet m key now with
    | some c =>
      if limit ≤ c then (⟨false, 0, limit⟩, m)
      else (⟨true, limit - (c + 1), limit⟩, kvPut m key (c + 1) (now + RATE_TTL_MS))
    | none => (⟨true, limit - 1, limit⟩, kvPut m key 1 (now + RATE_TTL_MS))

/-- The shared state a request sees: the rate-limit counters and the graph
document, both living in the KV store. -/
structure St where
  rate : RateMap
  graph : Graph

/-- How a request ends, following the error taxonomy of the spec. -/
inductive Outcome where
  | ok
  | invalidArgument
  | notFound
  | conflict
  | rateLimited
  deriving DecidableEq

/-- An observation as supplied to create-entity: a bare string or an object
with optional observed_at/expires_at. -/
inductive ObsInput where
  | ostr (s : String)
  | orec (text : String) (observed_at : Option ℤ) (expires_at : Option ℤ)
  deriving DecidableEq

/-- handleCreateEntity's normalisation of a supplied observation. -/
def createObs (now : ℤ) : ObsInput → Obs
  | .ostr s => .orec ⟨s, some now, none, none, 0, some 1⟩
  | .orec t oa ea => .orec ⟨t, some (oa.getD now), ea, none, 0, some 1⟩

/-- The observation record pushed by add-observation. -/
def mkObs (txt : String) (now : ℤ) (ea : Option ℤ) : Obs :=
  .orec ⟨txt, some now, ea, none, 0, some 1⟩

/-- Replace the first element satisfying p by f of it (the in-place mutation
of the entity found by Array.prototype.find). -/
def updateFirst {α : Type} (p : α → Bool) (f : α → α) : List α → List α
  | [] => []
  | x :: xs => if p x then f x :: xs else x :: updateFirst p f xs

/-- Whether an entity with the given name exists. -/
def hasEntity (g : Graph) (nm : String) : Bool :=
  g.entities.any (fun e => e.name == nm)

/-- Whether the exact (source, relation, target) triple exists. -/
def hasTriple (g : Graph) (s r t : String) : Bool :=
  g.relations.any (fun x => x.source == s && x.relation == r && x.target == t)

/-- Append an observation to the named entity and touch updated. -/
def pushObs (nm : String) (o : Obs) (now : ℤ) (es : List Entity) : List Entity :=
  updateFirst (fun e => e.name == nm)
    (fun e => { e with observations := e.observations ++ [o], updated := now }) es

/-- The observation text contributed by one optional field of register-agent
(JS truthiness: a missing or empty string contributes nothing). -/
def optText (o : Option String) (pre : String) : List String :=
  match o with
  | some s => if s = "" then [] else [pre ++ s]
  | none => []

/-- JS truthiness of an optional string field. -/
def optTruthy (o : Option String) : Bool :=
  match o with
  | some s => s != ""
  | none => false

/-- register-agent's de-duplicated observation push: skip a text already
present on the entity. -/
def addIfMissing (now : ℤ) (acc : List Obs) (txt : String) : List Obs :=
  if acc.any (fun o => obsText o == txt) then acc
  else acc ++ [.orec ⟨txt, some now, none, none, 0, some 1⟩]

/-- register-agent's relation pushes: active_on Twitter, active_on Moltbook,
runs_on platform — each guarded by truthiness and a containment check, the
platform check against the entity list after the possible entity push. -/
def regRelations (g : Graph) (es : List Entity) (nm : String)
    (tw mb plat : Option String) (now : ℤ) : List Rel :=
  let r1 := if optTruthy tw && !(g.relations.any (fun r => r.source == nm && r.target == "Twitter"))
    then g.relations ++ [⟨nm, "active_on", "Twitter", now, none⟩] else g.relations
  let r2 := if optTruthy mb && !(r1.any (fun r => r.source == nm && r.target == "Moltbook"))
    then r1 ++ [⟨nm, "active_on", "Moltbook", now, none⟩] else r1
  match plat with
  | some p =>
    if (p != "") && es.any (fun e => e.name == p) then
      if !(r2.any (fun r => r.source == nm && r.target == p && r.relation == "runs_on"))
      then r2 ++ [⟨nm, "runs_on", p, now, none⟩] else r2
    else r2
  | none => r2

/-- The in-scope requests of the public surface: the REST handlers, the MCP
tools/call path, agent registration, and the read-only routes. -/
inductive Req where
  | restCreateEntity (ip name entityType : String) (obs : List ObsInput)
  | restAddObservation (ip name text : String) (expires_at : Option ℤ)
  | restCreateRelation (ip source relation target : String) (expires_at : Option ℤ)
  | mcpCreateEntity (name entityType : String) (obs : List String)
  | mcpAddObservation (name text : String) (expires_at : Option ℤ)
  | mcpCreateRelation (source relation target : String) (expires_at : Option ℤ)
  | registerAgent (ip name : String) (twitter moltbook description platform verified : Option String)
  | restSearch (ip q : String)
  | restEntity (ip name : String)
  | stats
  | graphDump
  | agents
  | mcpSearch (q : String)
  | mcpReadEntity (name : String)
  | mcpReadGraph
  | mcpStats

/-- The state transition of each request, following the control flow of the
corresponding handler in the source (rate check where the handler performs
one, validation, load, duplicate/existence checks, mutation, save). -/
def applyReq (st : St) (now : ℤ) : Req → Outcome × St
  | .restCreateEntity ip name etype obs =>
    let c := checkRateLimit st.rate ip "entities" now
    if c.1.allowed = false then (.rateLimited, ⟨c.2, st.graph⟩)
    else if name = "" ∨ etype = "" then (.invalidArgument, ⟨c.2, st.graph⟩)
    else if hasEntity st.graph name then (.conflict, ⟨c.2, st.graph⟩)
    else (.ok, ⟨c.2, ⟨st.graph.entities ++ [⟨name, etype, obs.map (createObs now), now, now⟩],
      st.graph.relations⟩⟩)
  | .restAddObservation ip name txt ea =>
    let c := checkRateLimit st.rate ip "observations" now
    if c.1.allowed = false then (.rateLimited, ⟨c.2, st.graph⟩)
    else if name = "" ∨ txt = "" then (.invalidArgument, ⟨c.2, st.graph⟩)
    else if hasEntity st.graph name = false then (.notFound, ⟨c.2, st.graph⟩)
    else (.ok, ⟨c.2, ⟨pushObs name (mkObs txt now ea) now st.graph.entities, st.graph.relations⟩⟩)
  | .restCreateRelation ip s r t ea =>
    let c := checkRateLimit st.rate ip "relations" now
    if c.1.allowed = false then (.rateLimited, ⟨c.2, st.graph⟩)
    else if s = "" ∨ r = "" ∨ t = "" then (.invalidArgument, ⟨c.2, st.graph⟩)
    else if hasEntity st.graph s = false then (.notFound, ⟨c.2, st.graph⟩)
    else if hasEntity st.graph t = false then (.notFound, ⟨c.2, st.graph⟩)
    else if hasTriple st.graph s r t then (.conflict, ⟨c.2, st.graph⟩)
    else (.ok, ⟨c.2, ⟨st.graph.entities, st.graph.relations ++ [⟨s, r, t, now, ea⟩]⟩⟩)
  | .mcpCreateEntity name etype obs =>
    if hasEntity st.graph name then (.conflict, st)
    else (.ok, ⟨st.rate, ⟨st.graph.entities ++
      [⟨name, etype, obs.map (fun s => Obs.orec ⟨s, some now, none, none, 0, some 1⟩), now, now⟩],
      st.graph.relations⟩⟩)
  | .mcpAddObservation name txt ea =>
    if hasEntity st.graph name = false then (.notFound, st)
    else (.ok, ⟨st.rate, ⟨pushObs name (mkObs txt now ea) now st.graph.entities, st.graph.relations⟩⟩)
  | .mcpCreateRelation s r t ea =>
    if hasEntity st.graph s = false then (.notFound, st)
    else if hasEntity st.graph t = false then (.notFound, st)
    else (.ok, ⟨st.rate, ⟨st.graph.entities, st.graph.relations ++ [⟨s, r, t, now, ea⟩]⟩⟩)
  | .registerAgent ip name tw mb desc plat ver =>
    if name.trim = "" then (.invalidArgument, st)
    else
      let c := checkRateLimit st.rate ip "entities" now
      if c.1.allowed = false then (.rateLimited, ⟨c.2, st.graph⟩)
      else
        let nm := name.trim
        let texts := optText desc "" ++ optText tw "Twitter: " ++ optText mb "Moltbook: "
          ++ optText plat "Runs on " ++ optText ver "Verification: "
        let es :=
          if hasEntity st.graph nm then
            updateFirst (fun e => e.name == nm)
              (fun e =>
                { e with
                  observations := texts.foldl (addIfMissing now) e.observations
                  updated := now })
              st.graph.entities
          else st.graph.entities ++
            [⟨nm, "agent", texts.map (fun t => Obs.orec ⟨t, some now, none, none, 0, some 1⟩), now, now⟩]
        (.ok, ⟨c.2, ⟨es, regRelations st.graph es nm tw mb plat now⟩⟩)
  | .restSearch ip _ =>
    let c := checkRateLimit st.rate ip "reads" now
    if c.1.allowed = false then (.rateLimited, ⟨c.2, st.graph⟩)
    else (.ok, ⟨c.2, st.graph⟩)
  | .restEntity ip name =>
    let c := checkRateLimit st.rate ip "reads" now
    if c.1.allowed = false then (.rateLimited, ⟨c.2, st.graph⟩)
    else if hasEntity st.graph name = false then (.notFound, ⟨c.2, st.graph⟩)
    else (.ok, ⟨c.2, st.graph⟩)
  | .stats => (.ok, st)
  | .graphDump => (.ok, st)
  | .agents => (.ok, st)
  | .mcpSearch _ => (.ok, st)
  | .mcpReadEntity _ => (.ok, st)
  | .mcpReadGraph => (.ok, st)
  | .mcpStats => (.ok, st)

/-- The graph documents reachable through the public operations, starting
from the empty document loadGraph defaults to. -/
inductive Reach : Graph → Prop where
  | init : Reach ⟨[], []⟩
  | step (g : Graph) (m : RateMap) (now : ℤ) (req : Req) :
      Reach g → Reach ((applyReq ⟨m, g⟩ now req).2.graph)

/-- A rate-map with no counters. -/
def emptyRate : RateMap := fun _ => none

/-- A rate-map in which every counter is far over every limit. -/
def fullRate : RateMap := fun _ => some (1000000, 99999999999)

def gEmpty : Graph := ⟨[], []⟩

def entA : Entity := ⟨"A", "agent", [], 0, 0⟩

def entB : Entity := ⟨"B", "tool", [], 0, 0⟩

def relAB : Rel := ⟨"A", "r", "B", 0, none⟩

/-- Two entities joined by one relation, fresh counters. -/
def stAB : St := ⟨emptyRate, ⟨[entA, entB], [relAB]⟩⟩

/-- Empty graph, exhausted counters. -/
def stFull : St := ⟨fullRate, gEmpty⟩

def obsSecret : Obs := .orec ⟨"SECRET", some 0, some 5, none, 0, some 1⟩

def obsPub : Obs := .orec ⟨"PUB", some 0, none, none, 0, some 1⟩

def entE : Entity := ⟨"E", "agent", [obsSecret, obsPub], 0, 0⟩

/-- A graph whose one entity has one expired and one active observation. -/
def gExp : Graph := ⟨[entE], []⟩

/-- Whether an observation text is exposed by any Get Entity or Search call
(REST or MCP) against the document g at instant now. -/
def expiredRecoverable (g : Graph) (now : ℤ) (txt : String) : Prop :=
  (∃ nm v, entityViewOf g now nm = some v ∧ txt ∈ v.observations.map ObsView.text)
  ∨ (∃ q v, v ∈ searchRespViews g q now ∧ txt ∈ v.observations.map ObsView.text)
  ∨ (∃ nm, txt ∈ mcpEntityTexts g now nm)
  ∨ (∃ q, txt ∈ mcpSearchTexts g q now)

def entAlpha : Entity := ⟨"alpha", "t", [], 0, 0⟩

def entBeta : Entity := ⟨"beta", "t", [], 0, 0⟩

def gSearch : Graph := ⟨[entAlpha, entBeta], []⟩

/-- An entity whose name-plus-type concatenation is "ab" only without the
space separator. -/
def entLowA : Entity := ⟨"a", "b", [], 0, 0⟩

def gAB : Graph := ⟨[entLowA], []⟩

/-- An observation stored with a zero access count and no last access. -/
def obsFresh (o : Obs) : Prop :=
  (normalizeObs o).access_count = 0 ∧ (normalizeObs o).last_accessed = none

/-- Every observation of the document is fresh in the sense of obsFresh. -/
def graphFresh (g : Graph) : Prop :=
  ∀ e ∈ g.entities, ∀ o ∈ e.observations, obsFresh o

def obsHi : Obs := .orec ⟨"hi", some 0, none, none, 0, some 1⟩

def entHi : Entity := ⟨"A", "agent", [obsHi], 0, 0⟩

/-- The document after one create-entity step from the empty document. -/
def gStep1 : Graph :=
  (applyReq ⟨emptyRate, gEmpty⟩ 0 (Req.restCreateEntity "203.0.113.7" "A" "agent" [ObsInput.ostr "hi"])).2.graph

end OKG

namespace OKG

/-! ## Decay-engine lemmas -/

theorem halfPow_zero : halfPow 0 = 1 := by
  unfold halfPow
  rw [Rat.cast_zero, Real.rpow_zero]

theorem halfPow_one : halfPow 1 = 1/2 := by
  unfold halfPow
  rw [Rat.cast_one, Real.rpow_one]

theorem halfPow_nat_val (n : ℕ) : halfPow (n : ℚ) = ((1:ℝ)/2) ^ n := by
  unfold halfPow
  rw [show (((n : ℚ)) : ℝ) = (n : ℝ) by push_cast; ring, Real.rpow_natCast]

theorem halfPow_lt {q1 q2 : ℚ} (h : q1 < q2) : halfPow q2 < halfPow q1 := by
  unfold halfPow
  exact Real.rpow_lt_rpow_of_exponent_gt (by norm_num) (by norm_num) (by exact_mod_cast h)

theorem accessBoostVal_ge_one (n : ℕ) : 1 ≤ accessBoostVal n := by
  unfold accessBoostVal ACCESS_BOOST
  have hn : (0:ℝ) ≤ (n : ℝ) * (1/10) := by positivity
  linarith

theorem recencyBoostVal_ge_one (la : Option ℤ) (now : ℤ) : 1 ≤ recencyBoostVal la now := by
  cases la with
  | none => simp [recencyBoostVal]
  | some t =>
    simp only [recencyBoostVal]
    split
    · rename_i h
      have hd : (((now - t : ℤ) : ℚ) / MS_PER_DAY : ℚ) < 7 := by
        simpa [RECENCY_BOOST_DAYS] using h
      have hd' : ((((now - t : ℤ) : ℚ) / MS_PER_DAY : ℚ) : ℝ) < 7 := by exact_mod_cast hd
      nlinarith
    · exact le_refl 1

theorem decayScore_orec (txt : String) (oa ea la : Option ℤ) (n : ℕ) (rel : ℚ) (now : ℤ) :
    decayScore (Obs.orec ⟨txt, oa, ea, la, n, some rel⟩) now
      = max MIN_RELEVANCE ((rel : ℝ)
          * halfPow (ageDaysOf oa now / DECAY_HALF_LIFE_DAYS)
          * accessBoostVal n
          * recencyBoostVal la now) := rfl

theorem decayScore_simple (txt : String) (t : ℤ) (ea : Option ℤ) (rel : ℚ) (now : ℤ) :
    decayScore (Obs.orec ⟨txt, some t, ea, none, 0, some rel⟩) now
      = max MIN_RELEVANCE ((rel : ℝ)
          * halfPow (((now - t : ℤ) : ℚ) / MS_PER_DAY / DECAY_HALF_LIFE_DAYS)) := by
  rw [decayScore_orec]
  have hA : accessBoostVal 0 = 1 := by
    unfold accessBoostVal
    norm_num
  have hR : recencyBoostVal none now = 1 := rfl
  rw [hA, hR, mul_one, mul_one]
  rfl

/-! ## C1 -/

/-- C1: for every observation and instant, the Decay Engine returns exactly
max(0.01, relevance * 0.5^(ageDays/30) * (1 + 0.1*access_count) * recencyBoost)
with observed_at defaulting to now and the spec's recency ramp; the baseline
score at age 0 is exactly 1 and at age 30 days exactly 1/2. -/
theorem c1_decay_formula :
    (∀ (o : Obs) (now : ℤ), decayScore o now = specDecayScore o now)
    ∧ decayScore (Obs.orec ⟨"base", some 0, none, none, 0, some 1⟩) 0 = 1
    ∧ decayScore (Obs.orec ⟨"base", some 0, none, none, 0, some 1⟩) 2592000000 = 1/2 := by
  refine ⟨fun o now => rfl, ?_, ?_⟩
  · rw [decayScore_simple]
    have e0 : (((0 - 0 : ℤ) : ℚ)) / MS_PER_DAY / DECAY_HALF_LIFE_DAYS = 0 := by
      norm_num
    rw [e0, halfPow_zero]
    rw [show (((1:ℚ)) : ℝ) * 1 = 1 by norm_num]
    rw [max_eq_right (by norm_num [MIN_RELEVANCE])]
  · rw [decayScore_simple]
    have e1 : (((2592000000 - 0 : ℤ) : ℚ)) / MS_PER_DAY / DECAY_HALF_LIFE_DAYS = 1 := by
      norm_num [MS_PER_DAY, DECAY_HALF_LIFE_DAYS]
    rw [e1, halfPow_one]
    rw [show (((1:ℚ)) : ℝ) * ((1:ℝ)/2) = 1/2 by norm_num]
    rw [max_eq_right (by norm_num [MIN_RELEVANCE])]

/-! ## C2 -/

/-- C2 counterexample: with baseline fields, the scores at 300 days and at
600 days of age are equal (both are the floor MIN_RELEVANCE), so the score is
not strictly decreasing in ageDays. -/
theorem c2_counterexample :
    ageDaysOf (some (-25920000000 : ℤ)) 0 < ageDaysOf (some (-51840000000 : ℤ)) 0
    ∧ decayScore (Obs.orec ⟨"f", some (-25920000000), none, none, 0, some 1⟩) 0
        = decayScore (Obs.orec ⟨"f", some (-51840000000), none, none, 0, some 1⟩) 0 := by
  constructor
  · norm_num [ageDaysOf, MS_PER_DAY]
  · rw [decayScore_simple, decayScore_simple]
    have e1 : (((0 - -25920000000 : ℤ) : ℚ)) / MS_PER_DAY / DECAY_HALF_LIFE_DAYS
        = ((10:ℕ) : ℚ) := by
      norm_num [MS_PER_DAY, DECAY_HALF_LIFE_DAYS]
    have e2 : (((0 - -51840000000 : ℤ) : ℚ)) / MS_PER_DAY / DECAY_HALF_LIFE_DAYS
        = ((20:ℕ) : ℚ) := by
      norm_num [MS_PER_DAY, DECAY_HALF_LIFE_DAYS]
    rw [e1, e2, halfPow_nat_val, halfPow_nat_val]
    rw [max_eq_left (by norm_num [MIN_RELEVANCE]), max_eq_left (by norm_num [MIN_RELEVANCE])]

/-- C2 (amended): holding relevance (positive), access_count, last_accessed
and now fixed, the score is non-increasing as ageDays increases, and strictly
decreasing as long as the older score is still above the floor MIN_RELEVANCE;
at the floor it is constant. -/
theorem c2_decay_antitone (txt : String) (ea la : Option ℤ) (n : ℕ) (rel : ℚ)
    (t1 t2 now : ℤ) (hrel : 0 < rel) (ht : t2 < t1) :
    decayScore (Obs.orec ⟨txt, some t2, ea, la, n, some rel⟩) now
      ≤ decayScore (Obs.orec ⟨txt, some t1, ea, la, n, some rel⟩) now
    ∧ (MIN_RELEVANCE < decayScore (Obs.orec ⟨txt, some t2, ea, la, n, some rel⟩) now →
        decayScore (Obs.orec ⟨txt, some t2, ea, la, n, some rel⟩) now
          < decayScore (Obs.orec ⟨txt, some t1, ea, la, n, some rel⟩) now) := by
  rw [decayScore_orec, decayScore_orec]
  have hrel' : (0:ℝ) < (rel : ℝ) := by exact_mod_cast hrel
  have hA : (0:ℝ) < accessBoostVal n := lt_of_lt_of_le one_pos (accessBoostVal_ge_one n)
  have hR : (0:ℝ) < recencyBoostVal la now := lt_of_lt_of_le one_pos (recencyBoostVal_ge_one la now)
  have he : ageDaysOf (some t1) now / DECAY_HALF_LIFE_DAYS
      < ageDaysOf (some t2) now / DECAY_HALF_LIFE_DAYS := by
    unfold ageDaysOf MS_PER_DAY DECAY_HALF_LIFE_DAYS
    have h1 : ((now - t1 : ℤ) : ℚ) < ((now - t2 : ℤ) : ℚ) := by
      exact_mod_cast sub_lt_sub_left ht now
    linarith
  have hhp := halfPow_lt he
  have hraw : (rel : ℝ) * halfPow (ageDaysOf (some t2) now / DECAY_HALF_LIFE_DAYS)
        * accessBoostVal n * recencyBoostVal la now
      < (rel : ℝ) * halfPow (ageDaysOf (some t1) now / DECAY_HALF_LIFE_DAYS)
        * accessBoostVal n * recencyBoostVal la now := by
    have h1 := mul_lt_mul_of_pos_left hhp hrel'
    exact mul_lt_mul_of_pos_right (mul_lt_mul_of_pos_right h1 hA) hR
  refine ⟨max_le_max le_rfl hraw.le, fun hfl => ?_⟩
  have h2 : MIN_RELEVANCE < (rel : ℝ)
      * halfPow (ageDaysOf (some t2) now / DECAY_HALF_LIFE_DAYS)
      * accessBoostVal n * recencyBoostVal la now := by
    by_contra hle
    push_neg at hle
    rw [max_eq_left hle] at hfl
    exact lt_irrefl _ hfl
  calc max MIN_RELEVANCE ((rel : ℝ)
        * halfPow (ageDaysOf (some t2) now / DECAY_HALF_LIFE_DAYS)
        * accessBoostVal n * recencyBoostVal la now)
      = (rel : ℝ) * halfPow (ageDaysOf (some t2) now / DECAY_HALF_LIFE_DAYS)
        * accessBoostVal n * recencyBoostVal la now := max_eq_right h2.le
    _ < (rel : ℝ) * halfPow (ageDaysOf (some t1) now / DECAY_HALF_LIFE_DAYS)
        * accessBoostVal n * recencyBoostVal la now := hraw
    _ ≤ max MIN_RELEVANCE ((rel : ℝ)
        * halfPow (ageDaysOf (some t1) now / DECAY_HALF_LIFE_DAYS)
        * accessBoostVal n * recencyBoostVal la now) := le_max_right _ _

/-- C2 witness: at relevance 1 and ages 30 days versus 0 days the amended
strict decrease applies, giving score 1/2 < 1. -/
theorem c2_witness :
    decayScore (Obs.orec ⟨"f", some (-2592000000), none, none, 0, some 1⟩) 0
      < decayScore (Obs.orec ⟨"f", some 0, none, none, 0, some 1⟩) 0 := by
  apply (c2_decay_antitone "f" none none 0 1 0 (-2592000000) 0 (by norm_num) (by norm_num)).2
  rw [decayScore_simple]
  have e1 : (((0 - -2592000000 : ℤ) : ℚ)) / MS_PER_DAY / DECAY_HALF_LIFE_DAYS = 1 := by
    norm_num [MS_PER_DAY, DECAY_HALF_LIFE_DAYS]
  rw [e1, halfPow_one]
  rw [show (((1:ℚ)) : ℝ) * ((1:ℝ)/2) = 1/2 by norm_num]
  exact lt_max_iff.mpr (Or.inr (by norm_num [MIN_RELEVANCE]))

/-! ## Rate-limiter lemmas -/

theorem checkRateLimit_deny_map (m : RateMap) (ip op : String) (now : ℤ)
    (h : (checkRateLimit m ip op now).1.allowed = false) :
    (checkRateLimit m ip op now).2 = m := by
  by_cases hb : ip = ORAC_IP
  · simp [checkRateLimit, hb] at h
  · simp only [checkRateLimit, if_neg hb] at h ⊢
    rcases hkv : kvGet m ("rate:" ++ ip ++ ":" ++ op) now with _ | c
    · simp [hkv] at h
    · simp only [hkv] at h ⊢
      by_cases hlim : RATE_LIMITS op ≤ c
      · simp [hlim]
      · simp [hlim] at h

/-! ## C7 -/

/-- C7 counterexample: starting from no counters, a permitted call at time 0
creates the counter expiring at RATE_TTL_MS, and a second permitted call at
time 600000 within the same window rewrites the entry to expire at
600000 + RATE_TTL_MS — the time-to-live is refreshed by the increment, not
set only once at creation. -/
theorem c7_counterexample :
    (checkRateLimit (checkRateLimit emptyRate "9.9.9.9" "entities" 0).2
        "9.9.9.9" "entities" 600000).2 ("rate:" ++ "9.9.9.9" ++ ":" ++ "entities")
      = some (2, 600000 + RATE_TTL_MS)
    ∧ (600000 + RATE_TTL_MS : ℚ) ≠ 0 + RATE_TTL_MS := by
  refine ⟨by decide, by norm_num [RATE_TTL_MS]⟩

/-- C7 (amended): for every non-exempt identity, every permitted call writes
the counter with a time-to-live of one hour measured from that call (so the
window expiry is refreshed by each increment), and a denied call leaves the
counter map unchanged. -/
theorem c7_ttl_refreshed (m : RateMap) (ip op : String) (now : ℤ)
    (hip : ip ≠ ORAC_IP) :
    ((checkRateLimit m ip op now).1.allowed = true →
      (checkRateLimit m ip op now).2 ("rate:" ++ ip ++ ":" ++ op)
        = some ((kvGet m ("rate:" ++ ip ++ ":" ++ op) now).getD 0 + 1, now + RATE_TTL_MS))
    ∧ ((checkRateLimit m ip op now).1.allowed = false →
      (checkRateLimit m ip op now).2 = m) := by
  constructor
  · intro hal
    simp only [checkRateLimit, if_neg hip] at hal ⊢
    rcases hkv : kvGet m ("rate:" ++ ip ++ ":" ++ op) now with _ | c
    · simp only [hkv]
      simp [kvPut]
    · simp only [hkv] at hal ⊢
      by_cases hlim : RATE_LIMITS op ≤ c
      · simp [hlim] at hal
      · simp only [if_neg hlim]
        simp [kvPut]
  · exact checkRateLimit_deny_map m ip op now

/-- C7 witness: the first permitted call on a fresh map writes count 1 with
expiry one hour from the call. -/
theorem c7_witness :
    (checkRateLimit emptyRate "9.9.9.9" "observations" 0).2
        ("rate:" ++ "9.9.9.9" ++ ":" ++ "observations")
      = some ((kvGet emptyRate ("rate:" ++ "9.9.9.9" ++ ":" ++ "observations") 0).getD 0 + 1,
          0 + RATE_TTL_MS) :=
  (c7_ttl_refreshed emptyRate "9.9.9.9" "observations" 0 (by decide)).1 (by decide)

/-! ## C3 -/

/-- C3 counterexample: with every counter exhausted (the rate check denies
for the class "entities"), the MCP tools/call create_entity still writes the
document — the MCP path performs no rate-limit check. -/
theorem c3_counterexample :
    (checkRateLimit stFull.rate "203.0.113.7" "entities" 0).1.allowed = false
    ∧ (applyReq stFull 0 (Req.mcpCreateEntity "N" "agent" [])).1 = Outcome.ok
    ∧ (applyReq stFull 0 (Req.mcpCreateEntity "N" "agent" [])).2.graph.entities.length = 1
    ∧ stFull.graph.entities.length = 0 := by
  refine ⟨by decide, by decide, by decide, by decide⟩

/-- C3 (amended): the REST handlers (create entity, add observation, create
relation, search, get entity) consult the rate limiter first and a denied
check yields RateLimited with the counters and the document untouched; the
MCP tools/call mutations never touch the rate state, and Stats and the
full-graph read perform no rate-limit check and no write at all. -/
theorem c3_rate_consultation (st : St) (now : ℤ) :
    (∀ ip nm ty obs, (checkRateLimit st.rate ip "entities" now).1.allowed = false →
        applyReq st now (Req.restCreateEntity ip nm ty obs) = (Outcome.rateLimited, st))
    ∧ (∀ ip nm tx ea, (checkRateLimit st.rate ip "observations" now).1.allowed = false →
        applyReq st now (Req.restAddObservation ip nm tx ea) = (Outcome.rateLimited, st))
    ∧ (∀ ip s r t ea, (checkRateLimit st.rate ip "relations" now).1.allowed = false →
        applyReq st now (Req.restCreateRelation ip s r t ea) = (Outcome.rateLimited, st))
    ∧ (∀ ip q, (checkRateLimit st.rate ip "reads" now).1.allowed = false →
        applyReq st now (Req.restSearch ip q) = (Outcome.rateLimited, st))
    ∧ (∀ ip nm, (checkRateLimit st.rate ip "reads" now).1.allowed = false →
        applyReq st now (Req.restEntity ip nm) = (Outcome.rateLimited, st))
    ∧ (∀ nm ty obs, (applyReq st now (Req.mcpCreateEntity nm ty obs)).2.rate = st.rate)
    ∧ (∀ nm tx ea, (applyReq st now (Req.mcpAddObservation nm tx ea)).2.rate = st.rate)
    ∧ (∀ s r t ea, (applyReq st now (Req.mcpCreateRelation s r t ea)).2.rate = st.rate)
    ∧ applyReq st now Req.stats = (Outcome.ok, st)
    ∧ applyReq st now Req.graphDump = (Outcome.ok, st) := by
  refine ⟨?_, ?_, ?_, ?_, ?_, ?_, ?_, ?_, rfl, rfl⟩
  · intro ip nm ty obs h
    simp only [applyReq, if_pos h, checkRateLimit_deny_map st.rate ip "entities" now h]
  · intro ip nm tx ea h
    simp only [applyReq, if_pos h, checkRateLimit_deny_map st.rate ip "observations" now h]
  · intro ip s r t ea h
    simp only [applyReq, if_pos h, checkRateLimit_deny_map st.rate ip "relations" now h]
  · intro ip q h
    simp only [applyReq, if_pos h, checkRateLimit_deny_map st.rate ip "reads" now h]
  · intro ip nm h
    simp only [applyReq, if_pos h, checkRateLimit_deny_map st.rate ip "reads" now h]
  · intro nm ty obs
    simp only [applyReq]
    split <;> rfl
  · intro nm tx ea
    simp only [applyReq]
    split <;> rfl
  · intro s r t ea
    simp only [applyReq]
    split <;> [rfl; split <;> rfl]

/-- C3 witness: a denied REST create-entity changes nothing. -/
theorem c3_witness :
    applyReq stFull 0 (Req.restCreateEntity "203.0.113.7" "N" "agent" [])
      = (Outcome.rateLimited, stFull) :=
  (c3_rate_consultation stFull 0).1 "203.0.113.7" "N" "agent" [] (by decide)

/-! ## C9 -/

/-- C9: every mutating operation that fails (InvalidArgument, NotFound,
Conflict or RateLimited) leaves the persisted document exactly as it was —
there is no partial application on any interface. -/
theorem c9_failed_mutations_preserve (st : St) (now : ℤ) :
    (∀ ip nm ty obs, (applyReq st now (Req.restCreateEntity ip nm ty obs)).1 ≠ Outcome.ok →
        (applyReq st now (Req.restCreateEntity ip nm ty obs)).2.graph = st.graph)
    ∧ (∀ ip nm tx ea, (applyReq st now (Req.restAddObservation ip nm tx ea)).1 ≠ Outcome.ok →
        (applyReq st now (Req.restAddObservation ip nm tx ea)).2.graph = st.graph)
    ∧ (∀ ip s r t ea, (applyReq st now (Req.restCreateRelation ip s r t ea)).1 ≠ Outcome.ok →
        (applyReq st now (Req.restCreateRelation ip s r t ea)).2.graph = st.graph)
    ∧ (∀ nm ty obs, (applyReq st now (Req.mcpCreateEntity nm ty obs)).1 ≠ Outcome.ok →
        (applyReq st now (Req.mcpCreateEntity nm ty obs)).2.graph = st.graph)
    ∧ (∀ nm tx ea, (applyReq st now (Req.mcpAddObservation nm tx ea)).1 ≠ Outcome.ok →
        (applyReq st now (Req.mcpAddObservation nm tx ea)).2.graph = st.graph)
    ∧ (∀ s r t ea, (applyReq st now (Req.mcpCreateRelation s r t ea)).1 ≠ Outcome.ok →
        (applyReq st now (Req.mcpCreateRelation s r t ea)).2.graph = st.graph)
    ∧ (∀ ip nm tw mb de pl ve,
        (applyReq st now (Req.registerAgent ip nm tw mb de pl ve)).1 ≠ Outcome.ok →
        (applyReq st now (Req.registerAgent ip nm tw mb de pl ve)).2.graph = st.graph) := by
  refine ⟨?_, ?_, ?_, ?_, ?_, ?_, ?_⟩
  · intro ip nm ty obs
    simp only [applyReq]
    split_ifs <;> intro h <;> first | rfl | exact absurd rfl h
  · intro ip nm tx ea
    simp only [applyReq]
    split_ifs <;> intro h <;> first | rfl | exact absurd rfl h
  · intro ip s r t ea
    simp only [applyReq]
    split_ifs <;> intro h <;> first | rfl | exact absurd rfl h
  · intro nm ty obs
    simp only [applyReq]
    split_ifs <;> intro h <;> first | rfl | exact absurd rfl h
  · intro nm tx ea
    simp only [applyReq]
    split_ifs <;> intro h <;> first | rfl | exact absurd rfl h
  · intro s r t ea
    simp only [applyReq]
    split_ifs <;> intro h <;> first | rfl | exact absurd rfl h
  · intro ip nm tw mb de pl ve
    simp only [applyReq]
    split_ifs <;> intro h <;> first | rfl | exact absurd rfl h

/-- C9 witness: a conflicting REST create-relation leaves the document as it
was. -/
theorem c9_witness :
    (applyReq stAB 0 (Req.restCreateRelation "203.0.113.7" "A" "r" "B" none)).2.graph
      = stAB.graph :=
  (c9_failed_mutations_preserve stAB 0).2.2.1 "203.0.113.7" "A" "r" "B" none (by decide)

/-! ## C4 -/

/-- C4 counterexample: the MCP create_relation path appends a second copy of
an already-existing triple and reports success — the duplicate check exists
only on the REST handler. -/
theorem c4_counterexample :
    hasTriple stAB.graph "A" "r" "B" = true
    ∧ (applyReq stAB 0 (Req.mcpCreateRelation "A" "r" "B" none)).1 = Outcome.ok
    ∧ (applyReq stAB 0 (Req.mcpCreateRelation "A" "r" "B" none)).2.graph.relations.length = 2 := by
  refine ⟨by decide, by decide, by decide⟩

/-- C4 (amended): the REST create-relation handler rejects a duplicate triple
with Conflict and a missing endpoint with NotFound, appending nothing in
either case; the MCP create_relation path rejects missing endpoints with
NotFound and appends nothing then, but performs no duplicate check and
appends the triple whenever both endpoints exist, a duplicate included. -/
theorem c4_relation_creation (st : St) (now : ℤ) (ip s r t : String) (ea : Option ℤ) :
    ((checkRateLimit st.rate ip "relations" now).1.allowed = true →
      ¬(s = "" ∨ r = "" ∨ t = "") →
      hasTriple st.graph s r t = true →
      hasEntity st.graph s = true → hasEntity st.graph t = true →
      (applyReq st now (Req.restCreateRelation ip s r t ea)).1 = Outcome.conflict
        ∧ (applyReq st now (Req.restCreateRelation ip s r t ea)).2.graph = st.graph)
    ∧ ((checkRateLimit st.rate ip "relations" now).1.allowed = true →
      ¬(s = "" ∨ r = "" ∨ t = "") →
      (hasEntity st.graph s = false ∨ hasEntity st.graph t = false) →
      (applyReq st now (Req.restCreateRelation ip s r t ea)).1 = Outcome.notFound
        ∧ (applyReq st now (Req.restCreateRelation ip s r t ea)).2.graph = st.graph)
    ∧ ((hasEntity st.graph s = false ∨ hasEntity st.graph t = false) →
      (applyReq st now (Req.mcpCreateRelation s r t ea)).1 = Outcome.notFound
        ∧ (applyReq st now (Req.mcpCreateRelation s r t ea)).2.graph = st.graph)
    ∧ (hasEntity st.graph s = true → hasEntity st.graph t = true →
      (applyReq st now (Req.mcpCreateRelation s r t ea)).1 = Outcome.ok
        ∧ (applyReq st now (Req.mcpCreateRelation s r t ea)).2.graph.relations
            = st.graph.relations ++ [⟨s, r, t, now, ea⟩]) := by
  refine ⟨?_, ?_, ?_, ?_⟩
  · intro hal hval hdup hs ht
    simp [applyReq, hal, hval, hs, ht, hdup]
  · intro hal hval hnf
    rcases hnf with hs | ht
    · simp [applyReq, hal, hval, hs]
    · by_cases hs2 : hasEntity st.graph s = false
      · simp [applyReq, hal, hval, hs2]
      · simp only [Bool.not_eq_false] at hs2
        simp [applyReq, hal, hval, hs2, ht]
  · intro hnf
    rcases hnf with hs | ht
    · simp [applyReq, hs]
    · by_cases hs2 : hasEntity st.graph s = false
      · simp [applyReq, hs2]
      · simp only [Bool.not_eq_false] at hs2
        simp [applyReq, hs2, ht]
  · intro hs ht
    simp [applyReq, hs, ht]

/-- C4 witness: the REST handler answers Conflict for the existing triple and
leaves the document unchanged. -/
theorem c4_witness :
    (applyReq stAB 0 (Req.restCreateRelation "203.0.113.7" "A" "r" "B" none)).1 = Outcome.conflict
    ∧ (applyReq stAB 0 (Req.restCreateRelation "203.0.113.7" "A" "r" "B" none)).2.graph
        = stAB.graph :=
  (c4_relation_creation stAB 0 "203.0.113.7" "A" "r" "B" none).1
    (by decide) (by decide) (by decide) (by decide) (by decide)


/-! ## Name-uniqueness lemmas -/

theorem updateFirst_map_name (p : Entity → Bool) (f : Entity → Entity)
    (hf : ∀ e, (f e).name = e.name) :
    ∀ l : List Entity, (updateFirst p f l).map Entity.name = l.map Entity.name := by
  intro l
  induction l with
  | nil => rfl
  | cons x xs ih =>
    simp only [updateFirst]
    split
    · simp only [List.map_cons, hf x]
    · simp only [List.map_cons, ih]

theorem nodup_updateFirst (p : Entity → Bool) (f : Entity → Entity)
    (hf : ∀ e, (f e).name = e.name) (l : List Entity)
    (h : (l.map Entity.name).Nodup) : ((updateFirst p f l).map Entity.name).Nodup := by
  rw [updateFirst_map_name p f hf l]
  exact h

theorem nodup_push_fresh (l : List Entity) (nm ty : String) (obs : List Obs) (c u : ℤ)
    (h : (l.map Entity.name).Nodup) (hn : (l.any (fun x => x.name == nm)) = false) :
    ((l ++ [Entity.mk nm ty obs c u]).map Entity.name).Nodup := by
  rw [List.map_append, List.nodup_append]
  refine ⟨h, List.nodup_singleton _, ?_⟩
  intro a ha hb
  simp only [List.map_cons, List.map_nil, List.mem_singleton] at hb
  rcases List.mem_map.mp ha with ⟨x, hx, hxn⟩
  rw [List.any_eq_false] at hn
  apply hn x hx
  simp [hxn, hb]

/-! ## C8 -/

/-- C8: starting from a document whose entity names are pairwise distinct,
every in-scope operation (REST and MCP creates, observation pushes, relation
creation, agent registration, and all reads) leaves the names pairwise
distinct; a create of an existing name is rejected before any push. -/
theorem c8_name_uniqueness (st : St) (now : ℤ) (req : Req)
    (h : (st.graph.entities.map Entity.name).Nodup) :
    ((applyReq st now req).2.graph.entities.map Entity.name).Nodup := by
  cases req with
  | restCreateEntity ip nm ty obs =>
    simp only [applyReq]
    split_ifs with h1 h2 h3
    · exact h
    · exact h
    · exact h
    · refine nodup_push_fresh _ nm ty _ now now h ?_
      simpa [hasEntity] using h3
  | restAddObservation ip nm tx ea =>
    simp only [applyReq]
    split_ifs with h1 h2 h3
    · exact h
    · exact h
    · exact h
    · refine nodup_updateFirst _ _ ?_ _ h
      intro e
      rfl
  | restCreateRelation ip s r t ea =>
    simp only [applyReq]
    split_ifs <;> exact h
  | mcpCreateEntity nm ty obs =>
    simp only [applyReq]
    split_ifs with h1
    · exact h
    · refine nodup_push_fresh _ nm ty _ now now h ?_
      simpa [hasEntity] using h1
  | mcpAddObservation nm tx ea =>
    simp only [applyReq]
    split_ifs with h1
    · exact h
    · refine nodup_updateFirst _ _ ?_ _ h
      intro e
      rfl
  | mcpCreateRelation s r t ea =>
    simp only [applyReq]
    split_ifs <;> exact h
  | registerAgent ip nm tw mb de pl ve =>
    simp only [applyReq]
    split_ifs with h1 h2 h3
    · exact h
    · exact h
    · refine nodup_updateFirst _ _ ?_ _ h
      intro e
      rfl
    · refine nodup_push_fresh _ nm.trim "agent" _ now now h ?_
      simpa [hasEntity] using h3
  | restSearch ip q =>
    simp only [applyReq]
    split_ifs <;> exact h
  | restEntity ip nm =>
    simp only [applyReq]
    split_ifs <;> exact h
  | stats => exact h
  | graphDump => exact h
  | agents => exact h
  | mcpSearch q => exact h
  | mcpReadEntity nm => exact h
  | mcpReadGraph => exact h
  | mcpStats => exact h

/-- C8 witness: creating a fresh entity on a two-entity document keeps the
names pairwise distinct. -/
theorem c8_witness :
    ((applyReq stAB 0 (Req.restCreateEntity "203.0.113.7" "C" "tool" [])).2.graph.entities.map
      Entity.name).Nodup :=
  c8_name_uniqueness stAB 0 (Req.restCreateEntity "203.0.113.7" "C" "tool" []) (by decide)

/-! ## Freshness lemmas (for C10) -/

theorem obsFresh_createObs (now : ℤ) (i : ObsInput) : obsFresh (createObs now i) := by
  cases i <;> exact ⟨rfl, rfl⟩

theorem obsFresh_mkObs (txt : String) (now : ℤ) (ea : Option ℤ) : obsFresh (mkObs txt now ea) :=
  ⟨rfl, rfl⟩

theorem fresh_append {es : List Entity} {e : Entity}
    (h : ∀ x ∈ es, ∀ o ∈ x.observations, obsFresh o)
    (he : ∀ o ∈ e.observations, obsFresh o) :
    ∀ x ∈ es ++ [e], ∀ o ∈ x.observations, obsFresh o := by
  intro x hx
  rcases List.mem_append.mp hx with hx | hx
  · exact h x hx
  · rw [List.mem_singleton] at hx
    subst hx
    exact he

theorem fresh_updateFirst {p : Entity → Bool} {f : Entity → Entity}
    (hf : ∀ x, (∀ o ∈ x.observations, obsFresh o) → ∀ o ∈ (f x).observations, obsFresh o) :
    ∀ es : List Entity, (∀ x ∈ es, ∀ o ∈ x.observations, obsFresh o) →
      ∀ x ∈ updateFirst p f es, ∀ o ∈ x.observations, obsFresh o := by
  intro es
  induction es with
  | nil =>
    intro h x hx
    simp [updateFirst] at hx
  | cons y ys ih =>
    intro h x hx
    simp only [updateFirst] at hx
    by_cases hp : p y = true
    · rw [if_pos hp] at hx
      rcases List.mem_cons.mp hx with hx | hx
      · subst hx
        exact hf y (h y (List.mem_cons_self y ys))
      · exact h x (List.mem_cons_of_mem y hx)
    · rw [if_neg hp] at hx
      rcases List.mem_cons.mp hx with hx | hx
      · subst hx
        exact h x (List.mem_cons_self x ys)
      · exact ih (fun z hz => h z (List.mem_cons_of_mem y hz)) x hx

theorem fresh_addIfMissing_fold (now : ℤ) :
    ∀ (texts : List String) (acc : List Obs), (∀ o ∈ acc, obsFresh o) →
      ∀ o ∈ texts.foldl (addIfMissing now) acc, obsFresh o := by
  intro texts
  induction texts with
  | nil =>
    intro acc h o ho
    exact h o ho
  | cons t ts ih =>
    intro acc h o ho
    simp only [List.foldl_cons] at ho
    refine ih (addIfMissing now acc t) ?_ o ho
    intro o' ho'
    simp only [addIfMissing] at ho'
    split at ho'
    · exact h o' ho'
    · rcases List.mem_append.mp ho' with hx | hx
      · exact h o' hx
      · rw [List.mem_singleton] at hx
        subst hx
        exact ⟨rfl, rfl⟩

theorem applyReq_preserves_fresh (st : St) (now : ℤ) (req : Req)
    (h : graphFresh st.graph) : graphFresh (applyReq st now req).2.graph := by
  cases req with
  | restCreateEntity ip nm ty obs =>
    simp only [applyReq]
    split_ifs with h1 h2 h3
    · exact h
    · exact h
    · exact h
    · refine fresh_append h ?_
      intro o ho
      rcases List.mem_map.mp ho with ⟨i, hi, rfl⟩
      exact obsFresh_createObs now i
  | restAddObservation ip nm tx ea =>
    simp only [applyReq]
    split_ifs with h1 h2 h3
    · exact h
    · exact h
    · exact h
    · refine fresh_updateFirst ?_ st.graph.entities h
      intro x hx o ho
      rcases List.mem_append.mp ho with ho | ho
      · exact hx o ho
      · rw [List.mem_singleton] at ho
        subst ho
        exact obsFresh_mkObs tx now ea
  | restCreateRelation ip s r t ea =>
    simp only [applyReq]
    split_ifs <;> exact h
  | mcpCreateEntity nm ty obs =>
    simp only [applyReq]
    split_ifs with h1
    · exact h
    · refine fresh_append h ?_
      intro o ho
      rcases List.mem_map.mp ho with ⟨sx, hsx, rfl⟩
      exact ⟨rfl, rfl⟩
  | mcpAddObservation nm tx ea =>
    simp only [applyReq]
    split_ifs with h1
    · exact h
    · refine fresh_updateFirst ?_ st.graph.entities h
      intro x hx o ho
      rcases List.mem_append.mp ho with ho | ho
      · exact hx o ho
      · rw [List.mem_singleton] at ho
        subst ho
        exact obsFresh_mkObs tx now ea
  | mcpCreateRelation s r t ea =>
    simp only [applyReq]
    split_ifs <;> exact h
  | registerAgent ip nm tw mb de pl ve =>
    simp only [applyReq]
    split_ifs with h1 h2 h3
    · exact h
    · exact h
    · refine fresh_updateFirst ?_ st.graph.entities h
      intro x hx
      exact fresh_addIfMissing_fold now _ x.observations hx
    · refine fresh_append h ?_
      intro o ho
      rcases List.mem_map.mp ho with ⟨tx, htx, rfl⟩
      exact ⟨rfl, rfl⟩
  | restSearch ip q =>
    simp only [applyReq]
    split_ifs <;> exact h
  | restEntity ip nm =>
    simp only [applyReq]
    split_ifs <;> exact h
  | stats => exact h
  | graphDump => exact h
  | agents => exact h
  | mcpSearch q => exact h
  | mcpReadEntity nm => exact h
  | mcpReadGraph => exact h
  | mcpStats => exact h

/-! ## C10 -/

/-- C10: in every document reachable through the public operations, every
stored observation has access_count 0 and last_accessed null — no operation
ever increments access_count or sets last_accessed — so its access-boost and
recency-boost factors are exactly 1 and its decay score reduces to the pure
relevance-times-decay form. -/
theorem c10_zero_access (g : Graph) (hg : Reach g) :
    ∀ e ∈ g.entities, ∀ o ∈ e.observations,
      (normalizeObs o).access_count = 0 ∧ (normalizeObs o).last_accessed = none
      ∧ ∀ now : ℤ, accessBoostVal (normalizeObs o).access_count = 1
          ∧ recencyBoostVal (normalizeObs o).last_accessed now = 1
          ∧ decayScore o now = max MIN_RELEVANCE
              (((normalizeObs o).relevance : ℝ)
                * halfPow (ageDaysOf (normalizeObs o).observed_at now / DECAY_HALF_LIFE_DAYS)) := by
  have hfresh : graphFresh g := by
    induction hg with
    | init =>
      intro e he
      simp at he
    | step g m now req hg ih => exact applyReq_preserves_fresh ⟨m, g⟩ now req ih
  intro e he o ho
  obtain ⟨h0, hn⟩ := hfresh e he o ho
  have hA : accessBoostVal (normalizeObs o).access_count = 1 := by
    rw [h0]
    unfold accessBoostVal ACCESS_BOOST
    norm_num
  have hR : ∀ now : ℤ, recencyBoostVal (normalizeObs o).last_accessed now = 1 := by
    intro now
    rw [hn]
    rfl
  refine ⟨h0, hn, fun now => ⟨hA, hR now, ?_⟩⟩
  unfold decayScore
  rw [hA, hR now, mul_one, mul_one]

/-- C10 witness: the observation created by one create-entity step from the
empty document has zero access count, no last access, and unit boost factors. -/
theorem c10_witness :
    (normalizeObs obsHi).access_count = 0 ∧ (normalizeObs obsHi).last_accessed = none
    ∧ ∀ now : ℤ, accessBoostVal (normalizeObs obsHi).access_count = 1
        ∧ recencyBoostVal (normalizeObs obsHi).last_accessed now = 1
        ∧ decayScore obsHi now = max MIN_RELEVANCE
            (((normalizeObs obsHi).relevance : ℝ)
              * halfPow (ageDaysOf (normalizeObs obsHi).observed_at now / DECAY_HALF_LIFE_DAYS)) :=
  c10_zero_access gStep1 (Reach.step gEmpty emptyRate 0
      (Req.restCreateEntity "203.0.113.7" "A" "agent" [ObsInput.ostr "hi"]) Reach.init)
    entHi (by decide) obsHi (by decide)



/-! ## Stable-sort lemmas (for C5 and C6) -/

theorem insDesc_perm {α : Type} (f : α → ℝ) (x : α) (l : List α) :
    List.Perm (insDesc f x l) (x :: l) := by
  induction l with
  | nil => exact List.Perm.refl _
  | cons y ys ih =>
    simp only [insDesc]
    split
    · exact List.Perm.refl _
    · exact (ih.cons y).trans (List.Perm.swap x y ys)

theorem foldl_insDesc_perm {α : Type} (f : α → ℝ) :
    ∀ (l acc : List α),
      List.Perm (List.foldl (fun acc x => insDesc f x acc) acc l) (acc ++ l) := by
  intro l
  induction l with
  | nil =>
    intro acc
    simp
  | cons x xs ih =>
    intro acc
    simp only [List.foldl_cons]
    refine (ih (insDesc f x acc)).trans ?_
    refine ((insDesc_perm f x acc).append_right xs).trans ?_
    exact List.perm_middle.symm

theorem stableSortDesc_perm {α : Type} (f : α → ℝ) (l : List α) :
    List.Perm (stableSortDesc f l) l := by
  have h := foldl_insDesc_perm f l []
  simpa [stableSortDesc] using h

theorem insDesc_pairwise {α : Type} (f : α → ℝ) (x : α) (l : List α)
    (h : l.Pairwise (fun a b => f b ≤ f a)) :
    (insDesc f x l).Pairwise (fun a b => f b ≤ f a) := by
  induction l with
  | nil => simp [insDesc]
  | cons y ys ih =>
    rcases List.pairwise_cons.mp h with ⟨hy, hys⟩
    simp only [insDesc]
    split
    · rename_i hlt
      refine List.pairwise_cons.mpr ⟨?_, h⟩
      intro z hz
      rcases List.mem_cons.mp hz with rfl | hz
      · exact hlt.le
      · exact (hy z hz).trans hlt.le
    · rename_i hge
      push_neg at hge
      refine List.pairwise_cons.mpr ⟨?_, ih hys⟩
      intro z hz
      have hz' := ((insDesc_perm f x ys).mem_iff).mp hz
      rcases List.mem_cons.mp hz' with rfl | hz2
      · exact hge
      · exact hy z hz2

theorem foldl_insDesc_pairwise {α : Type} (f : α → ℝ) :
    ∀ (l acc : List α), acc.Pairwise (fun a b => f b ≤ f a) →
      (List.foldl (fun acc x => insDesc f x acc) acc l).Pairwise (fun a b => f b ≤ f a) := by
  intro l
  induction l with
  | nil =>
    intro acc h
    exact h
  | cons x xs ih =>
    intro acc h
    exact ih _ (insDesc_pairwise f x acc h)

theorem stableSortDesc_pairwise {α : Type} (f : α → ℝ) (l : List α) :
    (stableSortDesc f l).Pairwise (fun a b => f b ≤ f a) :=
  foldl_insDesc_pairwise f l [] List.Pairwise.nil

theorem insDesc_filter {α : Type} (f : α → ℝ) (pick : α → Bool)
    (hpick : ∀ a b, pick a = true → pick b = true → f a = f b) (x : α) :
    ∀ l : List α, l.Pairwise (fun a b => f b ≤ f a) →
      (insDesc f x l).filter pick = l.filter pick ++ (if pick x then [x] else []) := by
  intro l
  induction l with
  | nil =>
    intro _
    cases hx : pick x <;> simp [insDesc, List.filter, hx]
  | cons y ys ih =>
    intro h
    rcases List.pairwise_cons.mp h with ⟨hy, hys⟩
    simp only [insDesc]
    split
    · rename_i hlt
      cases hx : pick x
      · simp [List.filter_cons, hx]
      · have hnone : ∀ z ∈ y :: ys, pick z = false := by
          intro z hz
          cases hzt : pick z
          · rfl
          · exfalso
            have heq := hpick z x hzt hx
            rcases List.mem_cons.mp hz with rfl | hz2
            · exact absurd heq (ne_of_lt hlt)
            · exact absurd heq (ne_of_lt (lt_of_le_of_lt (hy z hz2) hlt))
        have hfe : (y :: ys).filter pick = [] := by
          rw [List.filter_eq_nil_iff]
          intro a ha
          simp [hnone a ha]
        rw [hfe]
        rw [List.filter_cons_of_pos (by rw [hx]), hfe]
        simp
    · rename_i hge
      have ihh := ih hys
      cases hy2 : pick y
      · rw [List.filter_cons_of_neg (by rw [hy2]; exact Bool.false_ne_true),
          List.filter_cons_of_neg (by rw [hy2]; exact Bool.false_ne_true), ihh]
      · rw [List.filter_cons_of_pos (by rw [hy2]),
          List.filter_cons_of_pos (by rw [hy2]), ihh]
        simp

theorem foldl_insDesc_filter {α : Type} (f : α → ℝ) (pick : α → Bool)
    (hpick : ∀ a b, pick a = true → pick b = true → f a = f b) :
    ∀ (l acc : List α), acc.Pairwise (fun a b => f b ≤ f a) →
      (List.foldl (fun acc x => insDesc f x acc) acc l).filter pick
        = acc.filter pick ++ l.filter pick := by
  intro l
  induction l with
  | nil =>
    intro acc h
    simp
  | cons x xs ih =>
    intro acc h
    simp only [List.foldl_cons]
    rw [ih _ (insDesc_pairwise f x acc h), insDesc_filter f pick hpick x acc h]
    cases hx : pick x
    · rw [List.filter_cons_of_neg (by rw [hx]; exact Bool.false_ne_true)]
      simp
    · rw [List.filter_cons_of_pos (by rw [hx])]
      simp

theorem stableSortDesc_filter {α : Type} (f : α → ℝ) (pick : α → Bool)
    (hpick : ∀ a b, pick a = true → pick b = true → f a = f b) (l : List α) :
    (stableSortDesc f l).filter pick = l.filter pick := by
  have h := foldl_insDesc_filter f pick hpick l [] List.Pairwise.nil
  simpa [stableSortDesc] using h

/-! ## C6 -/

/-- C6 counterexample: for the entity named "a" of type "b" with no
observations, the query "ab" is a substring of the separator-free
concatenation of name and type, yet the search returns nothing, because the
source joins the fields with spaces ("a b") before matching. -/
theorem c6_counterexample :
    occursIn (lowerStr "ab").toList (lowerStr ("a" ++ "b")).toList = true
    ∧ searchNodes gAB "ab" 0 = [] := by
  constructor
  · decide
  · have hm : searchMatches entLowA "ab" 0 = false := by decide
    simp [searchNodes, gAB, hm, stableSortDesc]

/-- C6 (amended): an entity is returned by Search iff the lowercased query is
a substring of the lowercased space-separated concatenation of its name, its
entityType and its non-expired observation texts; each result carries the
arithmetic mean of the decay scores of its non-expired observations (0 when
there are none); results are sorted by that score descending; and within any
class of tied scores the original entity iteration order is preserved. -/
theorem c6_search_semantics (g : Graph) (q : String) (now : ℤ) :
    (∀ e : Entity, (∃ s, (e, s) ∈ searchNodes g q now)
        ↔ (e ∈ g.entities ∧ searchMatches e q now = true))
    ∧ (∀ p ∈ searchNodes g q now, p.2 = avgScoreOf p.1 now)
    ∧ (searchNodes g q now).Pairwise (fun a b : Entity × ℝ => b.2 ≤ a.2)
    ∧ (∀ pick : Entity × ℝ → Bool,
        (∀ a b, pick a = true → pick b = true → a.2 = b.2) →
        (searchNodes g q now).filter pick
          = ((g.entities.filter (fun e => searchMatches e q now)).map
              (fun e => (e, avgScoreOf e now))).filter pick) := by
  refine ⟨?_, ?_, ?_, ?_⟩
  · intro e
    constructor
    · rintro ⟨s, hs⟩
      have hmem := ((stableSortDesc_perm (fun p : Entity × ℝ => p.2) _).mem_iff).mp hs
      rcases List.mem_map.mp hmem with ⟨a, ha, heq⟩
      obtain ⟨ha1, ha2⟩ := List.mem_filter.mp ha
      cases heq
      exact ⟨ha1, ha2⟩
    · rintro ⟨he, hm⟩
      refine ⟨avgScoreOf e now, ?_⟩
      apply ((stableSortDesc_perm (fun p : Entity × ℝ => p.2) _).mem_iff).mpr
      exact List.mem_map.mpr ⟨e, List.mem_filter.mpr ⟨he, hm⟩, rfl⟩
  · intro p hp
    have hmem := ((stableSortDesc_perm (fun p : Entity × ℝ => p.2) _).mem_iff).mp hp
    rcases List.mem_map.mp hmem with ⟨a, ha, heq⟩
    cases heq
    rfl
  · exact stableSortDesc_pairwise (fun p : Entity × ℝ => p.2) _
  · intro pick hpick
    exact stableSortDesc_filter (fun p : Entity × ℝ => p.2) pick hpick _

/-- C6 witness: the entity "alpha" is returned for the query "alpha" on the
two-entity document. -/
theorem c6_witness :
    entAlpha ∈ (searchNodes gSearch "alpha" 0).map Prod.fst := by
  obtain ⟨s, hs⟩ := ((c6_search_semantics gSearch "alpha" 0).1 entAlpha).mpr
    ⟨by decide, by decide⟩
  exact List.mem_map.mpr ⟨(entAlpha, s), hs, rfl⟩

/-! ## C5 -/

theorem searchNodes_gExp_fst (q : String) (p : Entity × ℝ)
    (hp : p ∈ searchNodes gExp q 10) : p.1 = entE := by
  have hmem := ((stableSortDesc_perm (fun p : Entity × ℝ => p.2) _).mem_iff).mp hp
  rcases List.mem_map.mp hmem with ⟨a, ha, heq⟩
  obtain ⟨ha1, _⟩ := List.mem_filter.mp ha
  have ha2 : a = entE := by simpa [gExp] using ha1
  subst ha2
  cases heq
  rfl

theorem getActiveObs_entE : getActiveObs entE 10 false = [obsPub] := by decide

/-- C5 counterexample: the observation "SECRET" of gExp is expired at instant
10 and remains stored, but it is not recoverable through any Get Entity or
Search call of the public surface, REST or MCP — the include-expired mode of
formatEntity is never reachable, contradicting the claimed recoverability. -/
theorem c5_counterexample :
    isExpired obsSecret 10 = true
    ∧ obsSecret ∈ entE.observations
    ∧ ¬ expiredRecoverable gExp 10 "SECRET" := by
  refine ⟨by decide, by decide, ?_⟩
  intro h
  have hsec : ("SECRET" : String) ≠ "PUB" := by decide
  rcases h with ⟨nm, v, hv, htxt⟩ | ⟨q, v, hv, htxt⟩ | ⟨nm, htxt⟩ | ⟨q, htxt⟩
  · simp only [entityViewOf, gExp] at hv
    rcases hfind : List.find? (fun e => e.name == nm) [entE] with _ | e0
    · rw [hfind] at hv
      simp at hv
    · rw [hfind] at hv
      have he0 : e0 = entE := by
        have hm := List.mem_of_find?_eq_some hfind
        simpa using hm
      subst he0
      have hv2 : some (formatEntity entE gExp 10 false) = some v := hv
      have hv3 := Option.some.inj hv2
      rw [← hv3] at htxt
      simp only [formatEntity, getActiveObs_entE] at htxt
      simp [obsPub, normalizeObs] at htxt
  · rcases List.mem_map.mp hv with ⟨p, hp, rfl⟩
    have hfst := searchNodes_gExp_fst q p hp
    rw [hfst] at htxt
    simp only [formatEntity, getActiveObs_entE] at htxt
    simp [obsPub, normalizeObs] at htxt
  · simp only [mcpEntityTexts, gExp] at htxt
    rcases hfind : List.find? (fun e => e.name == nm) [entE] with _ | e0
    · rw [hfind] at htxt
      simp at htxt
    · rw [hfind] at htxt
      have he0 : e0 = entE := by
        have hm := List.mem_of_find?_eq_some hfind
        simpa using hm
      subst he0
      have htxt2 : "SECRET" ∈ List.map obsText (getActiveObs entE 10 false) := htxt
      rw [getActiveObs_entE] at htxt2
      simp [obsPub, obsText] at htxt2
  · simp only [mcpSearchTexts] at htxt
    rcases List.mem_flatMap.mp htxt with ⟨p, hp, htxt2⟩
    have hfst := searchNodes_gExp_fst q p hp
    rw [hfst, getActiveObs_entE] at htxt2
    simp [obsPub, obsText] at htxt2

/-- C5 (amended): expired observations are excluded from the default entity
view and from search matching, reads never modify the stored document (so
expired observations remain stored unchanged), and the include-expired mode
exists only as the internal flag of getActiveObs/formatEntity — passing the
flag returns every stored observation — but no public route sets it. -/
theorem c5_expired_handling (now : ℤ) :
    (∀ (e : Entity) (o : Obs), o ∈ getActiveObs e now false → isExpired o now = false)
    ∧ (∀ e : Entity, getActiveObs e now true = e.observations)
    ∧ (∀ (st : St) (ip q nm : String),
        (applyReq st now (Req.restSearch ip q)).2.graph = st.graph
        ∧ (applyReq st now (Req.restEntity ip nm)).2.graph = st.graph
        ∧ (applyReq st now Req.stats).2.graph = st.graph
        ∧ (applyReq st now Req.graphDump).2.graph = st.graph
        ∧ (applyReq st now (Req.mcpSearch q)).2.graph = st.graph
        ∧ (applyReq st now (Req.mcpReadEntity nm)).2.graph = st.graph
        ∧ (applyReq st now Req.mcpReadGraph).2.graph = st.graph
        ∧ (applyReq st now Req.mcpStats).2.graph = st.graph) := by
  refine ⟨?_, ?_, ?_⟩
  · intro e o ho
    obtain ⟨hmem, hcond⟩ := List.mem_filter.mp ho
    simpa using hcond
  · intro e
    simp [getActiveObs]
  · intro st ip q nm
    refine ⟨?_, ?_, rfl, rfl, rfl, rfl, rfl, rfl⟩
    · simp only [applyReq]
      split_ifs <;> rfl
    · simp only [applyReq]
      split_ifs <;> rfl

/-- C5 witness: the non-expired observation of gExp passes the expiry filter
of the default view. -/
theorem c5_witness : isExpired obsPub 10 = false :=
  (c5_expired_handling 10).1 entE obsPub (by decide)


end OKG
